import Mathlib

/-!
# Shallow embedding of the splitit ledger engine

This file embeds the core ledger engine of the splitit Django application
(`splitit_app/models.py`, `splitit_app/serializers.py`, `splitit_app/views.py`)
and proves the frozen specification claims about it.

Modelling conventions:
* Money: every monetary field in the source is a Python `Decimal` stored in a
  `DecimalField(max_digits=10, decimal_places=2)`.  Request inputs pass through
  DRF `DecimalField(decimal_places=2)` validation, so every amount entering the
  engine is an exact multiple of 0.01.  We represent money as an integer number
  of cents (`Int`); decimal addition, subtraction and comparison are then exact
  integer operations, as in `Decimal`.
* Database rows become Lean structures; the database becomes `LedgerState`,
  lists of rows plus fresh-id counters.  Django ORM query-set filters become
  `List.filter` with the same conditions; `aggregate(Sum(..))` returns `None`
  on an empty query set, modelled by `aggregateSum : List Int → Option Int`.
* Fallible request handlers return `Except`/`Option`/tagged results; the HTTP
  status codes of `views.py` become constructors (`notFound`, `forbidden`, ...).
-/

namespace Splitit

/-- Choices of `Expenditure.split_type` (`models.py`, `SPLIT_TYPE_CHOICES`). -/
inductive SplitType where
  | equal
  | custom
deriving DecidableEq

/-- Choices of `Payment.status` (`models.py`, `STATUS_CHOICES`). -/
inductive PaymentStatus where
  | pending
  | completed
  | cancelled
deriving DecidableEq

/-- Row of the `Occasion` table (`models.py` lines 6-18); only the fields the
ledger engine reads. -/
structure Occasion where
  id : Nat
  createdById : Nat
deriving DecidableEq

/-- Row of the `Event` table (`models.py` lines 20-33).  `occasion` is a
nullable foreign key. -/
structure Event where
  id : Nat
  occasionId : Option Nat
  createdById : Nat
deriving DecidableEq

/-- Row of the `Expenditure` table (`models.py` lines 35-54).  `amount` is in
cents. -/
structure Expenditure where
  id : Nat
  eventId : Nat
  amount : Int
  description : String
  paidById : Nat
  splitType : SplitType
deriving DecidableEq

/-- Row of the `ExpenditureSplit` table (`models.py` lines 56-69).  `isPaid`
defaults to `false` (`is_paid = models.BooleanField(default=False)`). -/
structure ExpenditureSplit where
  id : Nat
  expenditureId : Nat
  userId : Nat
  amount : Int
  isPaid : Bool
deriving DecidableEq

/-- Row of the `Payment` table (`models.py` lines 71-99).  `expenditureSplitId`
is the optional one-to-one link to the split a settlement payment settles. -/
structure Payment where
  id : Nat
  fromUserId : Nat
  toUserId : Nat
  amount : Int
  description : String
  status : PaymentStatus
  expenditureSplitId : Option Nat
deriving DecidableEq

/-- The persisted state the engine reads and writes: one list per table plus
fresh primary-key counters. -/
structure LedgerState where
  occasions : List Occasion
  events : List Event
  expenditures : List Expenditure
  splits : List ExpenditureSplit
  payments : List Payment
  nextExpenditureId : Nat
  nextSplitId : Nat
  nextPaymentId : Nat
deriving DecidableEq

/-- Django `aggregate(total=Sum(amount))`: `None` when the query set is empty,
otherwise the exact decimal sum. -/
def aggregateSum (amounts : List Int) : Option Int :=
  if amounts.isEmpty then none else some amounts.sum

/-- The `or Decimal(0.00)` applied to every aggregate in `views.py`. -/
def orZero : Option Int → Int
  | none => 0
  | some v => v

/-- Round `t / n` to the nearest integer, ties to even (`ROUND_HALF_EVEN`,
Python `Decimal`'s default rounding). -/
def roundHalfEvenNat (t n : Nat) : Nat :=
  let q := t / n
  let r := t % n
  if 2 * r < n then q
  else if n < 2 * r then q + 1
  else if q % 2 = 0 then q else q + 1

/-- Value of `expenditure.amount / len(split_user_ids)` as stored in the `amount`
column of a split row: Python `Decimal` division (28 significant digits)
whose result Django quantizes to 2 decimal places with the context's
`ROUND_HALF_EVEN` on save (`DecimalField(decimal_places=2)`,
`format_number`).  In cents this is `t / n` rounded half-to-even; with
`max_digits=10` amounts and participant counts far below `10^18` the
28-digit intermediate never changes the rounded cent value, so the model
rounds the exact quotient.  `t` is positive here: the `amount` field's
`MinValueValidator(Decimal(0.01))` runs before `create()`. -/
def divideDecimal2 (t : Int) (n : Nat) : Int :=
  Int.ofNat (roundHalfEvenNat t.toNat n)

/-- The distinct `serializers.ValidationError` messages that
`ExpenditureSerializer` can raise before any row is written. -/
inductive ValidationError where
  /-- Message "Custom amounts and user IDs are required for custom split" -/
  | customRequired
  /-- Message "Number of custom amounts must match number of users" (SplitMismatch) -/
  | splitMismatch
  /-- Message "Sum of custom amounts must equal the total amount" (SplitSumMismatch) -/
  | splitSumMismatch
  /-- Validator `MinValueValidator(Decimal(0.01))` on the `amount` field -/
  | nonPositiveAmount
deriving DecidableEq

/-- Hook `ExpenditureSerializer.validate` (`serializers.py` lines 89-103).  Python
`not list` is emptiness; `sum` over `Decimal` is exact. -/
def ExpenditureSerializer.validate (splitType : SplitType) (amount : Int)
    (split_user_ids : List Nat) (custom_amounts : List Int) :
    Except ValidationError Unit :=
  match splitType with
  | .custom =>
    if custom_amounts.isEmpty || split_user_ids.isEmpty then
      .error .customRequired
    else if custom_amounts.length ≠ split_user_ids.length then
      .error .splitMismatch
    else if custom_amounts.sum ≠ amount then
      .error .splitSumMismatch
    else
      .ok ()
  | .equal => .ok ()

/-- DRF `serializer.is_valid()`: field validators (the model's
`MinValueValidator` on `amount`, copied onto the serializer field) run first,
then the object-level `validate` hook. -/
def ExpenditureSerializer.is_valid (amount : Int) (splitType : SplitType)
    (split_user_ids : List Nat) (custom_amounts : List Int) :
    Except ValidationError Unit :=
  if amount < 1 then .error .nonPositiveAmount
  else ExpenditureSerializer.validate splitType amount split_user_ids custom_amounts

/-- The split rows generated by `ExpenditureSerializer.create`
(`serializers.py` lines 112-129): equal mode divides the total by the
participant count and gives every listed user that share; custom mode zips
users with amounts pairwise.  Every generated row leaves `is_paid` at its
model default `False` — `create` never passes `is_paid`. -/
def ExpenditureSerializer.createSplits (expenditure : Expenditure)
    (split_user_ids : List Nat) (custom_amounts : List Int) (baseId : Nat) :
    List ExpenditureSplit :=
  match expenditure.splitType with
  | .equal =>
    if split_user_ids.isEmpty then []
    else
      let amount_per_user := divideDecimal2 expenditure.amount split_user_ids.length
      split_user_ids.enum.map (fun p =>
        { id := baseId + p.fst, expenditureId := expenditure.id, userId := p.snd,
          amount := amount_per_user, isPaid := false })
  | .custom =>
    (split_user_ids.zip custom_amounts).enum.map (fun p =>
      { id := baseId + p.fst, expenditureId := expenditure.id, userId := p.snd.fst,
        amount := p.snd.snd, isPaid := false })

/-- The whole expenditure-creation request (`ExpenditureListCreateView` POST):
`is_valid` gates `ExpenditureSerializer.create` (`serializers.py` lines
105-131); on a validation error nothing is written. -/
def ExpenditureSerializer.create (st : LedgerState) (eventId : Nat) (amount : Int)
    (description : String) (paidById : Nat) (splitType : SplitType)
    (split_user_ids : List Nat) (custom_amounts : List Int) :
    Except ValidationError (Expenditure × LedgerState) :=
  match ExpenditureSerializer.is_valid amount splitType split_user_ids custom_amounts with
  | .error e => .error e
  | .ok _ =>
    let expenditure : Expenditure :=
      { id := st.nextExpenditureId, eventId := eventId, amount := amount,
        description := description, paidById := paidById, splitType := splitType }
    let newSplits :=
      ExpenditureSerializer.createSplits expenditure split_user_ids custom_amounts st.nextSplitId
    .ok (expenditure,
      { st with
        expenditures := st.expenditures ++ [expenditure],
        splits := st.splits ++ newSplits,
        nextExpenditureId := st.nextExpenditureId + 1,
        nextSplitId := st.nextSplitId + newSplits.length })

/-- Foreign-key navigation `split.expenditure`. -/
def splitExpenditure (st : LedgerState) (s : ExpenditureSplit) : Option Expenditure :=
  st.expenditures.find? (fun e => e.id == s.expenditureId)

/-- Foreign-key navigation `split.expenditure.paid_by`. -/
def splitPaidBy (st : LedgerState) (s : ExpenditureSplit) : Option Nat :=
  (splitExpenditure st s).map Expenditure.paidById

/-- The `{balance, total_owed, total_owes}` triple serialized by
`UserBalanceSerializer`. -/
structure BalanceTriple where
  total_owed : Int
  total_owes : Int
  balance : Int
deriving DecidableEq

/-- Handler `user_balance` (`views.py` lines 109-134): `total_owed` sums unpaid splits
where the user is the debtor, excluding expenditures the user paid for;
`total_owes` sums unpaid splits on expenditures the user paid for, excluding
the user's own split; `balance = total_owes - total_owed`. -/
def user_balance (st : LedgerState) (userId : Nat) : BalanceTriple :=
  let total_owed := orZero (aggregateSum
    ((st.splits.filter (fun s =>
        s.userId == userId && s.isPaid == false &&
        !(splitPaidBy st s == some userId))).map ExpenditureSplit.amount))
  let total_owes := orZero (aggregateSum
    ((st.splits.filter (fun s =>
        splitPaidBy st s == some userId && s.isPaid == false &&
        !(s.userId == userId))).map ExpenditureSplit.amount))
  { total_owed := total_owed, total_owes := total_owes,
    balance := total_owes - total_owed }

/-- Query-set condition `expenditure__event__in=events` on a split. -/
def splitEventInScope (st : LedgerState) (events : List Event)
    (s : ExpenditureSplit) : Bool :=
  match splitExpenditure st s with
  | some e => events.any (fun ev => ev.id == e.eventId)
  | none => false

/-- The per-user balance computed inside `occasion_summary` (`views.py` lines
165-182): the same two sums as `user_balance` further filtered to
`expenditure__event__in=events`. -/
def occasionUserBalance (st : LedgerState) (events : List Event) (userId : Nat) :
    BalanceTriple :=
  let total_owed := orZero (aggregateSum
    ((st.splits.filter (fun s =>
        s.userId == userId && splitEventInScope st events s &&
        s.isPaid == false && !(splitPaidBy st s == some userId))).map
      ExpenditureSplit.amount))
  let total_owes := orZero (aggregateSum
    ((st.splits.filter (fun s =>
        splitPaidBy st s == some userId && splitEventInScope st events s &&
        s.isPaid == false && !(s.userId == userId))).map ExpenditureSplit.amount))
  { total_owed := total_owed, total_owes := total_owes,
    balance := total_owes - total_owed }

/-- The payload serialized by `OccasionSummarySerializer`. -/
structure OccasionSummary where
  occasionId : Nat
  total_expenditures : Int
  total_events : Nat
  user_balances : List (Nat × BalanceTriple)
deriving DecidableEq

/-- Handler `occasion_summary` (`views.py` lines 137-191): 404 unless the occasion
exists and belongs to the requesting user; then gross spend over the
occasion's events, the event count, and one scoped balance triple per
deduplicated participant (payers and split debtors). -/
def occasion_summary (st : LedgerState) (occasionId : Nat) (requestUserId : Nat) :
    Option OccasionSummary :=
  match st.occasions.find? (fun o => o.id == occasionId && o.createdById == requestUserId) with
  | none => none
  | some occasion =>
    let events := st.events.filter (fun ev => ev.occasionId == some occasion.id)
    let scopedExp := st.expenditures.filter (fun e => events.any (fun ev => ev.id == e.eventId))
    let total_expenditures := orZero (aggregateSum (scopedExp.map Expenditure.amount))
    let user_ids := (scopedExp.flatMap (fun e =>
      e.paidById ::
        (st.splits.filter (fun s => s.expenditureId == e.id)).map
          ExpenditureSplit.userId)).dedup
    some
      { occasionId := occasion.id,
        total_expenditures := total_expenditures,
        total_events := events.length,
        user_balances := user_ids.map (fun uid => (uid, occasionUserBalance st events uid)) }

/-- Outcome of the settle endpoint: HTTP 200 with the payment, 404, or 403. -/
inductive SettleResult where
  | ok (payment : Payment)
  | notFound
  | forbidden
deriving DecidableEq

/-- The lookup condition of `settle_expenditure_split`:
`ExpenditureSplit.objects.get(id=split_id, is_paid=False)`. -/
def settlePred (splitId : Nat) (s : ExpenditureSplit) : Bool :=
  s.id == splitId && s.isPaid == false

/-- Handler `settle_expenditure_split` (`views.py` lines 194-229): 404 when no split
matches `(id, is_paid=False)`; 403 when the matching split's debtor is not the
requesting user; otherwise create a completed `Payment` from the requesting
user to the expenditure's payer for the split amount, linked to the split, and
flip the split's `is_paid` to true.  The dangling-foreign-key branch is
unreachable under referential integrity and returns 404 without mutation. -/
def settle_expenditure_split (st : LedgerState) (splitId : Nat)
    (requestUserId : Nat) : SettleResult × LedgerState :=
  match st.splits.find? (settlePred splitId) with
  | none => (.notFound, st)
  | some split =>
    if split.userId != requestUserId then (.forbidden, st)
    else
      match st.expenditures.find? (fun e => e.id == split.expenditureId) with
      | none => (.notFound, st)
      | some expenditure =>
        let payment : Payment :=
          { id := st.nextPaymentId, fromUserId := requestUserId,
            toUserId := expenditure.paidById, amount := split.amount,
            description := "Settlement for expenditure split " ++ toString split.id,
            status := .completed, expenditureSplitId := some split.id }
        (.ok payment,
          { st with
            payments := st.payments ++ [payment],
            splits := st.splits.map (fun s =>
              if s.id == split.id then { s with isPaid := true } else s),
            nextPaymentId := st.nextPaymentId + 1 })

/-- The ledger-engine operations in the spec's scope, as invoked by the
request handlers in `views.py`. -/
inductive Operation where
  | createExpenditure (eventId : Nat) (amount : Int) (description : String)
      (paidById : Nat) (splitType : SplitType) (split_user_ids : List Nat)
      (custom_amounts : List Int)
  | settleSplit (splitId : Nat) (requestUserId : Nat)
  | createPayment (fromUserId toUserId : Nat) (amount : Int) (description : String)
      (status : PaymentStatus) (expenditureSplitId : Option Nat)
  | getUserBalance (userId : Nat)
  | getOccasionSummary (occasionId : Nat) (requestUserId : Nat)

/-- State transition of one request.  Reads (`user_balance`,
`occasion_summary`) never mutate; a failed expenditure creation writes
nothing; manual payment creation (`PaymentListCreateView.perform_create`)
inserts one `Payment` row and touches no split. -/
def applyOp (st : LedgerState) (op : Operation) : LedgerState :=
  match op with
  | .createExpenditure eventId amount description paidById splitType uids amts =>
    match ExpenditureSerializer.create st eventId amount description paidById splitType uids amts with
    | .error _ => st
    | .ok r => r.snd
  | .settleSplit splitId requestUserId =>
    (settle_expenditure_split st splitId requestUserId).snd
  | .createPayment fromUserId toUserId amount description status expenditureSplitId =>
    { st with
      payments := st.payments ++
        [{ id := st.nextPaymentId, fromUserId := fromUserId, toUserId := toUserId,
           amount := amount, description := description, status := status,
           expenditureSplitId := expenditureSplitId }],
      nextPaymentId := st.nextPaymentId + 1 }
  | .getUserBalance _ => st
  | .getOccasionSummary _ _ => st

/-- A fresh database, as after `migrate`: no rows, primary keys starting at 1. -/
def emptyLedger : LedgerState :=
  { occasions := [], events := [], expenditures := [], splits := [], payments := [],
    nextExpenditureId := 1, nextSplitId := 1, nextPaymentId := 1 }

/-! ## General lemmas about the embedded operations -/

theorem orZero_aggregateSum (l : List Int) : orZero (aggregateSum l) = l.sum := by
  cases l <;> simp [orZero, aggregateSum]

/-! ## Claims -/

/-- Claim C1 (code bug): the spec (rules I6/P3) and the repository's own tests
(`tests.py::test_create_expenditure_with_payer_in_split` and
`::test_create_expenditure_custom_split_with_payer`) require the payer's own
split to be created with `is_paid = true`, but `ExpenditureSerializer.create`
never passes `is_paid`, so every split — the payer's included — is created
with the model default `is_paid = false`.  Evaluated here at the failing
input of the repository's own test: payer user 1 listed in the equal split of
a 100.00 expenditure among users 1 and 2; the payer's split comes out
unpaid. -/
theorem payer_split_created_unpaid :
    (ExpenditureSerializer.create emptyLedger 1 10000 "Test expense" 1 .equal
        [1, 2] []).toOption.map
        (fun r => r.snd.splits.map (fun s => (s.userId, s.amount, s.isPaid)))
      = some [(1, 5000, false), (2, 5000, false)] := by
  rfl

/-- Claim C8 (code bug): the spec requires equal mode never to silently lose
cents, but `create` stores `amount / len(split_user_ids)` quantized to 2
decimal places for every participant with no remainder distribution: a 100.00
expenditure split equally among three users yields three splits of 33.33
whose sum is 99.99, not 100.00. -/
theorem equal_split_drops_cents :
    ((ExpenditureSerializer.createSplits
        { id := 1, eventId := 1, amount := 10000, description := "Dinner",
          paidById := 1, splitType := .equal } [1, 2, 3] [] 1).map
      ExpenditureSplit.amount).sum = 9999 ∧ (9999 : Int) ≠ 10000 := by
  constructor
  · rfl
  · decide

/-- In custom mode, `create` pairs users with amounts by the pairwise zip. -/
theorem createSplits_custom_pairs (e : Expenditure) (uids : List Nat)
    (amts : List Int) (baseId : Nat) (hm : e.splitType = .custom) :
    (ExpenditureSerializer.createSplits e uids amts baseId).map
      (fun s => (s.userId, s.amount)) = uids.zip amts := by
  simp only [ExpenditureSerializer.createSplits, hm, List.map_map]
  have h : ((fun s : ExpenditureSplit => (s.userId, s.amount)) ∘
      (fun p : Nat × (Nat × Int) =>
        ({ id := baseId + p.fst, expenditureId := e.id, userId := p.snd.fst,
           amount := p.snd.snd, isPaid := false } : ExpenditureSplit))) = Prod.snd := by
    funext p
    rfl
  rw [h, List.enum_map_snd]

/-- Claim C2 (counterexample): with `custom_amounts = []` and one listed
participant the two lists have different lengths, yet validation rejects the
request with the required-fields `ValidationError`, not the SplitMismatch
one: the emptiness check at `serializers.py` line 94 fires before the length
check at line 97. -/
theorem custom_validate_empty_list_counterexample :
    ([] : List Int).length ≠ ([2] : List Nat).length ∧
    ExpenditureSerializer.validate .custom 10000 [2] [] =
      .error .customRequired ∧
    ValidationError.customRequired ≠ ValidationError.splitMismatch := by
  refine ⟨by decide, rfl, by decide⟩

/-- Claim C2 (amended): for custom-mode creation with both lists non-empty,
a length mismatch is rejected with the SplitMismatch error and nothing is
written; matching lengths with an exact-sum mismatch are rejected with the
SplitSumMismatch error and nothing is written; and when lengths match and the
sum equals the (positive) total exactly, the expenditure is created with one
split per `(participant, amount)` pair of the pairwise zip.  (When either
list is empty, validation still fails, but with the earlier required-fields
error instead of SplitMismatch.) -/
theorem custom_split_validation (st : LedgerState) (eventId : Nat) (amount : Int)
    (d : String) (paidById : Nat) (uids : List Nat) (amts : List Int)
    (hu : uids ≠ []) (ha : amts ≠ []) :
    (amts.length ≠ uids.length →
      ExpenditureSerializer.validate .custom amount uids amts = .error .splitMismatch ∧
      applyOp st (.createExpenditure eventId amount d paidById .custom uids amts) = st) ∧
    (amts.length = uids.length → amts.sum ≠ amount →
      ExpenditureSerializer.validate .custom amount uids amts = .error .splitSumMismatch ∧
      applyOp st (.createExpenditure eventId amount d paidById .custom uids amts) = st) ∧
    (amts.length = uids.length → amts.sum = amount → 1 ≤ amount →
      ∃ exp st2,
        ExpenditureSerializer.create st eventId amount d paidById .custom uids amts
          = .ok (exp, st2) ∧
        st2.splits = st.splits ++
          ExpenditureSerializer.createSplits exp uids amts st.nextSplitId ∧
        (ExpenditureSerializer.createSplits exp uids amts st.nextSplitId).map
          (fun s => (s.userId, s.amount)) = uids.zip amts) := by
  obtain ⟨u, us, rfl⟩ := List.exists_cons_of_ne_nil hu
  obtain ⟨a, as, rfl⟩ := List.exists_cons_of_ne_nil ha
  refine ⟨?_, ?_, ?_⟩
  · intro hlen
    have hlen' : as.length ≠ us.length := by simpa using hlen
    have hv : ExpenditureSerializer.validate .custom amount (u :: us) (a :: as)
        = .error .splitMismatch := by
      simp [ExpenditureSerializer.validate, hlen']
    refine ⟨hv, ?_⟩
    by_cases hA : amount < 1 <;>
      simp [applyOp, ExpenditureSerializer.create, ExpenditureSerializer.is_valid, hA, hv]
  · intro hlen hsum
    have hlen' : as.length = us.length := by simpa using hlen
    have hsum' : ¬ a + as.sum = amount := by simpa using hsum
    have hv : ExpenditureSerializer.validate .custom amount (u :: us) (a :: as)
        = .error .splitSumMismatch := by
      simp [ExpenditureSerializer.validate, hlen', hsum']
    refine ⟨hv, ?_⟩
    by_cases hA : amount < 1 <;>
      simp [applyOp, ExpenditureSerializer.create, ExpenditureSerializer.is_valid, hA, hv]
  · intro hlen hsum hA
    have hlen' : as.length = us.length := by simpa using hlen
    have hsum' : a + as.sum = amount := by simpa using hsum
    have hv : ExpenditureSerializer.validate .custom amount (u :: us) (a :: as) = .ok () := by
      simp [ExpenditureSerializer.validate, hlen', hsum']
    have hA' : ¬ amount < 1 := by omega
    have hiv : ExpenditureSerializer.is_valid amount .custom (u :: us) (a :: as) = .ok () := by
      simp [ExpenditureSerializer.is_valid, hA', hv]
    exact ⟨{ id := st.nextExpenditureId, eventId := eventId, amount := amount,
             description := d, paidById := paidById, splitType := .custom },
           { st with
             expenditures := st.expenditures ++
               [{ id := st.nextExpenditureId, eventId := eventId, amount := amount,
                  description := d, paidById := paidById, splitType := .custom }],
             splits := st.splits ++ ExpenditureSerializer.createSplits
               { id := st.nextExpenditureId, eventId := eventId, amount := amount,
                 description := d, paidById := paidById, splitType := .custom }
               (u :: us) (a :: as) st.nextSplitId,
             nextExpenditureId := st.nextExpenditureId + 1,
             nextSplitId := st.nextSplitId + (ExpenditureSerializer.createSplits
               { id := st.nextExpenditureId, eventId := eventId, amount := amount,
                 description := d, paidById := paidById, splitType := .custom }
               (u :: us) (a :: as) st.nextSplitId).length },
           by simp [ExpenditureSerializer.create, hiv],
           rfl,
           createSplits_custom_pairs _ _ _ _ rfl⟩

/-- Witness for C2's amended theorem at concrete inputs: users `[1, 2]`,
total 100.00; a length mismatch gives SplitMismatch, a 60.00+50.00 sum gives
SplitSumMismatch, and 60.00+40.00 creates the zipped splits. -/
theorem custom_split_validation_witness :
    (([1, 2] : List Nat) ≠ [] ∧ ([6000] : List Int) ≠ [] ∧
      ExpenditureSerializer.validate .custom 10000 [1, 2] [6000] =
        .error .splitMismatch) ∧
    (ExpenditureSerializer.validate .custom 10000 [1, 2] [6000, 5000] =
        .error .splitSumMismatch) ∧
    (∃ exp st2,
      ExpenditureSerializer.create emptyLedger 1 10000 "Hotel" 3 .custom
          [1, 2] [6000, 4000] = .ok (exp, st2) ∧
      st2.splits = emptyLedger.splits ++
        ExpenditureSerializer.createSplits exp [1, 2] [6000, 4000]
          emptyLedger.nextSplitId ∧
      (ExpenditureSerializer.createSplits exp [1, 2] [6000, 4000]
          emptyLedger.nextSplitId).map (fun s => (s.userId, s.amount)) =
        ([1, 2] : List Nat).zip ([6000, 4000] : List Int)) := by
  refine ⟨⟨by decide, by decide, ?_⟩, ?_, ?_⟩
  · exact ((custom_split_validation emptyLedger 1 10000 "Hotel" 3 [1, 2] [6000]
      (by decide) (by decide)).1 (by decide)).1
  · exact (((custom_split_validation emptyLedger 1 10000 "Hotel" 3 [1, 2] [6000, 5000]
      (by decide) (by decide)).2.1 (by decide) (by decide))).1
  · exact (custom_split_validation emptyLedger 1 10000 "Hotel" 3 [1, 2] [6000, 4000]
      (by decide) (by decide)).2.2 (by decide) (by decide) (by decide)

/-- Claim C3: when the total divides evenly into 2-decimal shares, equal-mode
split creation gives every listed participant the exact share `T / N` and the
shares sum back to `T` exactly. -/
theorem equal_split_exact (T : Int) (users : List Nat) (e : Expenditure) (baseId : Nat)
    (he : e.amount = T) (hm : e.splitType = .equal)
    (hT : 0 < T) (hne : users ≠ []) (hdvd : (users.length : Int) ∣ T) :
    (∀ s ∈ ExpenditureSerializer.createSplits e users [] baseId,
        s.amount = T / (users.length : Int)) ∧
    ((ExpenditureSerializer.createSplits e users [] baseId).map
      ExpenditureSplit.amount).sum = T := by
  have hn : 0 < users.length := List.length_pos.mpr hne
  have hTt : ((T.toNat : Int)) = T := Int.toNat_of_nonneg hT.le
  have hdvdNat : users.length ∣ T.toNat := by
    rw [← hTt] at hdvd
    exact_mod_cast hdvd
  have hr : T.toNat % users.length = 0 := by
    obtain ⟨k, hk⟩ := hdvdNat
    rw [hk]
    exact Nat.mul_mod_right _ _
  have hshare : divideDecimal2 T users.length = T / (users.length : Int) := by
    rw [divideDecimal2, roundHalfEvenNat]
    simp only [hr]
    rw [if_pos (by omega : 2 * 0 < users.length)]
    rw [show ((Int.ofNat (T.toNat / users.length))
        = ((T.toNat : Int) / (users.length : Int))) from Int.ofNat_ediv _ _, hTt]
  have hempty : users.isEmpty = false := by
    cases users with
    | nil => exact absurd rfl hne
    | cons x xs => rfl
  constructor
  · intro s hs
    rw [ExpenditureSerializer.createSplits, hm] at hs
    simp only [hempty, Bool.false_eq_true, if_false] at hs
    obtain ⟨p, hp, rfl⟩ := List.mem_map.mp hs
    show divideDecimal2 e.amount users.length = _
    rw [he, hshare]
  · rw [ExpenditureSerializer.createSplits, hm]
    simp only [hempty, Bool.false_eq_true, if_false]
    rw [List.map_map]
    have hconst : (ExpenditureSplit.amount ∘ fun p : Nat × Nat =>
        ({ id := baseId + p.fst, expenditureId := e.id, userId := p.snd,
           amount := divideDecimal2 e.amount users.length, isPaid := false } :
          ExpenditureSplit))
        = fun _ => divideDecimal2 e.amount users.length := by
      funext p
      rfl
    rw [hconst, List.map_const', List.sum_replicate, List.enum_length, he, hshare,
      nsmul_eq_mul]
    exact Int.mul_ediv_cancel' hdvd

/-- Witness for C3 at a 100.00 expenditure split equally between two users:
each split is 50.00 and the splits sum to 100.00. -/
theorem equal_split_exact_witness :
    ((0 : Int) < 10000 ∧ ([1, 2] : List Nat) ≠ [] ∧
      ((([1, 2] : List Nat).length : Int)) ∣ 10000) ∧
    (∀ s ∈ ExpenditureSerializer.createSplits
        { id := 1, eventId := 1, amount := 10000, description := "Trip",
          paidById := 1, splitType := .equal } [1, 2] [] 1,
        s.amount = 10000 / (([1, 2] : List Nat).length : Int)) ∧
    ((ExpenditureSerializer.createSplits
        { id := 1, eventId := 1, amount := 10000, description := "Trip",
          paidById := 1, splitType := .equal } [1, 2] [] 1).map
      ExpenditureSplit.amount).sum = 10000 := by
  refine ⟨⟨by decide, by decide, ⟨5000, by decide⟩⟩, ?_, ?_⟩
  · exact (equal_split_exact 10000 [1, 2] _ 1 rfl rfl (by decide) (by decide)
      ⟨5000, by decide⟩).1
  · exact (equal_split_exact 10000 [1, 2] _ 1 rfl rfl (by decide) (by decide)
      ⟨5000, by decide⟩).2

/-- A small populated database used by the concrete witnesses: one occasion
(id 1, by user 1) with one event (id 1) holding one 100.00 expenditure paid
by user 1, split with a single outstanding 50.00 share owed by user 2. -/
def demoLedger : LedgerState :=
  { occasions := [{ id := 1, createdById := 1 }],
    events := [{ id := 1, occasionId := some 1, createdById := 1 }],
    expenditures := [{ id := 1, eventId := 1, amount := 10000,
                       description := "Test expense", paidById := 1,
                       splitType := .equal }],
    splits := [{ id := 1, expenditureId := 1, userId := 2, amount := 5000,
                 isPaid := false }],
    payments := [],
    nextExpenditureId := 2, nextSplitId := 2, nextPaymentId := 1 }

/-- Claim C4: the balance query returns `total_owed` = exact sum of amounts of
unpaid splits whose debtor is the user, excluding splits of expenditures the
user paid for; `total_owes` = sum of amounts of unpaid splits on expenditures
the user paid for, excluding the user's own split; `balance = total_owes −
total_owed`; and an empty ledger yields zeros, not an error. -/
theorem user_balance_correct (st : LedgerState) (u : Nat) :
    (user_balance st u).total_owed =
      ((st.splits.filter (fun s =>
          decide (s.userId = u ∧ s.isPaid = false ∧ splitPaidBy st s ≠ some u))).map
        ExpenditureSplit.amount).sum ∧
    (user_balance st u).total_owes =
      ((st.splits.filter (fun s =>
          decide (splitPaidBy st s = some u ∧ s.isPaid = false ∧ s.userId ≠ u))).map
        ExpenditureSplit.amount).sum ∧
    (user_balance st u).balance =
      (user_balance st u).total_owes - (user_balance st u).total_owed ∧
    (st.splits = [] →
      user_balance st u = { total_owed := 0, total_owes := 0, balance := 0 }) := by
  have hfilter1 : st.splits.filter (fun s =>
      s.userId == u && s.isPaid == false && !(splitPaidBy st s == some u))
      = st.splits.filter (fun s =>
          decide (s.userId = u ∧ s.isPaid = false ∧ splitPaidBy st s ≠ some u)) := by
    apply List.filter_congr
    intro s _
    by_cases h1 : s.userId = u <;> by_cases h2 : s.isPaid <;>
      by_cases h3 : splitPaidBy st s = some u <;> simp [h1, h2, h3]
  have hfilter2 : st.splits.filter (fun s =>
      splitPaidBy st s == some u && s.isPaid == false && !(s.userId == u))
      = st.splits.filter (fun s =>
          decide (splitPaidBy st s = some u ∧ s.isPaid = false ∧ s.userId ≠ u)) := by
    apply List.filter_congr
    intro s _
    by_cases h1 : s.userId = u <;> by_cases h2 : s.isPaid <;>
      by_cases h3 : splitPaidBy st s = some u <;> simp [h1, h2, h3]
  refine ⟨?_, ?_, rfl, ?_⟩
  · show orZero (aggregateSum ((st.splits.filter (fun s =>
        s.userId == u && s.isPaid == false && !(splitPaidBy st s == some u))).map
      ExpenditureSplit.amount)) = _
    rw [orZero_aggregateSum, hfilter1]
  · show orZero (aggregateSum ((st.splits.filter (fun s =>
        splitPaidBy st s == some u && s.isPaid == false && !(s.userId == u))).map
      ExpenditureSplit.amount)) = _
    rw [orZero_aggregateSum, hfilter2]
  · intro h
    simp [user_balance, h, aggregateSum, orZero]

/-- Witness for C4 on `demoLedger` and its payer, user 1: no owed splits, one
50.00 split owed to them, balance +50.00 (the spec's P4 example). -/
theorem user_balance_correct_witness :
    ((user_balance demoLedger 1).total_owed =
      ((demoLedger.splits.filter (fun s =>
          decide (s.userId = 1 ∧ s.isPaid = false ∧
            splitPaidBy demoLedger s ≠ some 1))).map
        ExpenditureSplit.amount).sum) ∧
    user_balance demoLedger 1 =
      { total_owed := 0, total_owes := 5000, balance := 5000 } ∧
    user_balance demoLedger 2 =
      { total_owed := 5000, total_owes := 0, balance := -5000 } := by
  refine ⟨(user_balance_correct demoLedger 1).1, by decide, by decide⟩

/-- Claim C5: a debtor settling their outstanding split succeeds once and only
once.  The first call returns a completed `Payment` from the acting user to
the expenditure's payer, for the split amount, linked to the split, appended
to the payment table, and flips the split's `is_paid` to true; the second
call on the same split finds no `(id, is_paid=False)` row, returns 404 and
changes nothing — in particular no second payment referencing the split is
created. -/
theorem settle_twice (st : LedgerState) (splitId u : Nat) (sp : ExpenditureSplit)
    (e : Expenditure)
    (hfind : st.splits.find? (settlePred splitId) = some sp)
    (hu : sp.userId = u)
    (hexp : st.expenditures.find? (fun x => x.id == sp.expenditureId) = some e) :
    ∃ p st1,
      settle_expenditure_split st splitId u = (.ok p, st1) ∧
      p.status = .completed ∧ p.amount = sp.amount ∧ p.fromUserId = u ∧
      p.toUserId = e.paidById ∧ p.expenditureSplitId = some splitId ∧
      st1.payments = st.payments ++ [p] ∧
      (∀ s ∈ st1.splits, s.id = splitId → s.isPaid = true) ∧
      settle_expenditure_split st1 splitId u = (.notFound, st1) := by
  have hpred := List.find?_some hfind
  have hid : sp.id = splitId := by
    simp only [settlePred, Bool.and_eq_true, beq_iff_eq] at hpred
    exact hpred.1
  have hne : (sp.userId != u) = false := by simp [hu]
  simp only [settle_expenditure_split, hfind, hne, Bool.false_eq_true, if_false, hexp]
  refine ⟨_, _, rfl, rfl, rfl, rfl, rfl, by simp [hid], rfl, ?_, ?_⟩
  · intro s hs hsid
    obtain ⟨x, hx, rfl⟩ := List.mem_map.mp hs
    by_cases hxid : x.id = sp.id
    · simp [hxid]
    · rw [if_neg (by simpa using hxid)] at hsid ⊢
      exact absurd (hsid.trans hid.symm) hxid
  · have hnone : (st.splits.map (fun s =>
        if s.id == sp.id then { s with isPaid := true } else s)).find?
          (settlePred splitId) = none := by
      rw [List.find?_eq_none]
      intro x hx
      obtain ⟨y, hy, rfl⟩ := List.mem_map.mp hx
      by_cases hyid : y.id = sp.id
      · rw [if_pos (by simpa using hyid)]
        simp [settlePred]
      · rw [if_neg (by simpa using hyid)]
        have hy' : y.id ≠ splitId := fun h => hyid (h.trans hid.symm)
        simp [settlePred, hy']
    simp only [settle_expenditure_split, hnone]

/-- Claim C6: when the split exists and is outstanding but the acting user is
not its debtor, settle returns 403 Forbidden and the ledger state — splits
and payments included — is exactly unchanged. -/
theorem settle_forbidden_no_change (st : LedgerState) (splitId u : Nat)
    (sp : ExpenditureSplit)
    (hfind : st.splits.find? (settlePred splitId) = some sp)
    (hu : sp.userId ≠ u) :
    settle_expenditure_split st splitId u = (.forbidden, st) := by
  have hne : (sp.userId != u) = true := by simp [hu]
  simp [settle_expenditure_split, hfind, hne]

/-- Claim C10: the `(id, is_paid=False)` lookup precedes the authorization
check.  A settled-or-missing split yields 404 for every acting user; and the
call yields 403 exactly when a matching outstanding split exists whose debtor
is not the acting user. -/
theorem settle_checks_order (st : LedgerState) (splitId u : Nat) :
    ((∀ s ∈ st.splits, s.id = splitId → s.isPaid = true) →
      settle_expenditure_split st splitId u = (.notFound, st)) ∧
    (∀ sp, st.splits.find? (settlePred splitId) = some sp → sp.userId ≠ u →
      (settle_expenditure_split st splitId u).fst = .forbidden) ∧
    ((settle_expenditure_split st splitId u).fst = .forbidden →
      ∃ sp, st.splits.find? (settlePred splitId) = some sp ∧ sp.userId ≠ u) := by
  refine ⟨?_, ?_, ?_⟩
  · intro h
    have hnone : st.splits.find? (settlePred splitId) = none := by
      rw [List.find?_eq_none]
      intro x hx
      by_cases hxid : x.id = splitId
      · simp [settlePred, hxid, h x hx hxid]
      · simp [settlePred, hxid]
    simp [settle_expenditure_split, hnone]
  · intro sp hfind hu
    have hne : (sp.userId != u) = true := by simp [hu]
    simp [settle_expenditure_split, hfind, hne]
  · intro hforb
    rcases hfind : st.splits.find? (settlePred splitId) with _ | sp
    · simp [settle_expenditure_split, hfind] at hforb
    · by_cases huser : sp.userId = u
      · have hne : (sp.userId != u) = false := by simp [huser]
        rcases hexp : st.expenditures.find? (fun x => x.id == sp.expenditureId) with _ | e <;>
          simp [settle_expenditure_split, hfind, hne, hexp] at hforb
      · exact ⟨sp, rfl, huser⟩

/-- State of `demoLedger` after user 2 has settled their split: the single split is
paid. -/
def settledDemoLedger : LedgerState :=
  { demoLedger with
    splits := [{ id := 1, expenditureId := 1, userId := 2, amount := 5000,
                 isPaid := true }] }

/-- Witness for C5 on `demoLedger`: user 2 settles split 1 (owed to payer
user 1); the payment is completed, for 50.00, linked to split 1, and the
second identical call returns 404 without further change. -/
theorem settle_twice_witness :
    ∃ p st1,
      settle_expenditure_split demoLedger 1 2 = (.ok p, st1) ∧
      p.status = .completed ∧
      p.amount = ({ id := 1, expenditureId := 1, userId := 2, amount := 5000,
                    isPaid := false } : ExpenditureSplit).amount ∧
      p.fromUserId = 2 ∧
      p.toUserId = ({ id := 1, eventId := 1, amount := 10000,
                      description := "Test expense", paidById := 1,
                      splitType := .equal } : Expenditure).paidById ∧
      p.expenditureSplitId = some 1 ∧
      st1.payments = demoLedger.payments ++ [p] ∧
      (∀ s ∈ st1.splits, s.id = 1 → s.isPaid = true) ∧
      settle_expenditure_split st1 1 2 = (.notFound, st1) :=
  settle_twice demoLedger 1 2
    { id := 1, expenditureId := 1, userId := 2, amount := 5000, isPaid := false }
    { id := 1, eventId := 1, amount := 10000, description := "Test expense",
      paidById := 1, splitType := .equal } rfl rfl rfl

/-- Witness for C6 on `demoLedger`: user 3 (not the debtor) attempting to
settle split 1 gets 403 and the state is untouched. -/
theorem settle_forbidden_no_change_witness :
    settle_expenditure_split demoLedger 1 3 = (.forbidden, demoLedger) :=
  settle_forbidden_no_change demoLedger 1 3
    { id := 1, expenditureId := 1, userId := 2, amount := 5000, isPaid := false }
    rfl (by decide)

/-- Witness for C10: on the already-settled ledger even non-debtor user 3
gets 404, while on the outstanding ledger the same user gets 403. -/
theorem settle_checks_order_witness :
    settle_expenditure_split settledDemoLedger 1 3 = (.notFound, settledDemoLedger) ∧
    (settle_expenditure_split demoLedger 1 3).fst = .forbidden := by
  constructor
  · exact (settle_checks_order settledDemoLedger 1 3).1 (by decide)
  · exact (settle_checks_order demoLedger 1 3).2.1
      { id := 1, expenditureId := 1, userId := 2, amount := 5000, isPaid := false }
      rfl (by decide)

/-- Claim C7: the occasion summary reports `total_expenditures` as the gross
sum of expenditure amounts over the occasion's events (no `is_paid`
filtering), `total_events` as the number of the occasion's events, and one
entry per deduplicated participant — every in-scope expenditure's payer and
every such split's debtor — each carrying the balance triple scoped to those
events. -/
theorem occasion_summary_correct (st : LedgerState) (oid ru : Nat) (occ : Occasion)
    (hocc : st.occasions.find? (fun o => o.id == oid && o.createdById == ru) = some occ) :
    ∃ summary, occasion_summary st oid ru = some summary ∧
      summary.total_events =
        (st.events.filter (fun ev => ev.occasionId == some oid)).length ∧
      summary.total_expenditures =
        ((st.expenditures.filter (fun e =>
            decide (e.eventId ∈ (st.events.filter
              (fun ev => ev.occasionId == some oid)).map Event.id))).map
          Expenditure.amount).sum ∧
      (∀ uid, (∃ b, (uid, b) ∈ summary.user_balances) ↔
        (∃ e ∈ st.expenditures,
          e.eventId ∈ (st.events.filter
            (fun ev => ev.occasionId == some oid)).map Event.id ∧
          (e.paidById = uid ∨
            ∃ s ∈ st.splits, s.expenditureId = e.id ∧ s.userId = uid))) ∧
      (∀ uid b, (uid, b) ∈ summary.user_balances →
        b = occasionUserBalance st
          (st.events.filter (fun ev => ev.occasionId == some oid)) uid) := by
  have hoid : occ.id = oid := by
    have h := List.find?_some hocc
    simp only [Bool.and_eq_true, beq_iff_eq] at h
    exact h.1
  have hpt : ∀ e : Expenditure,
      ((st.events.filter (fun ev => ev.occasionId == some oid)).any
        (fun ev => ev.id == e.eventId))
      = decide (e.eventId ∈
          (st.events.filter (fun ev => ev.occasionId == some oid)).map Event.id) := by
    intro e
    by_cases h : e.eventId ∈
        (st.events.filter (fun ev => ev.occasionId == some oid)).map Event.id
    · have ha : (st.events.filter (fun ev => ev.occasionId == some oid)).any
          (fun ev => ev.id == e.eventId) = true := by
        rw [List.any_eq_true]
        obtain ⟨ev, hev, heq⟩ := List.mem_map.mp h
        exact ⟨ev, hev, by simp [heq]⟩
      simp [ha, h]
    · have ha : (st.events.filter (fun ev => ev.occasionId == some oid)).any
          (fun ev => ev.id == e.eventId) = false := by
        rw [List.any_eq_false]
        intro ev hev
        simp only [beq_iff_eq]
        intro heq
        exact h (List.mem_map.mpr ⟨ev, hev, heq⟩)
      simp [ha, h]
  simp only [occasion_summary, hocc, hoid]
  refine ⟨_, rfl, rfl, ?_, ?_, ?_⟩
  · rw [orZero_aggregateSum]
    exact congrArg List.sum
      (congrArg (List.map Expenditure.amount) (List.filter_congr (fun e _ => hpt e)))
  · intro uid
    constructor
    · rintro ⟨b, hb⟩
      obtain ⟨x, hx, hxy⟩ := List.mem_map.mp hb
      obtain ⟨hx1, hx2⟩ := Prod.mk.injEq .. ▸ hxy
      subst hx1
      rw [List.mem_dedup, List.mem_flatMap] at hx
      obtain ⟨e, he, hmem⟩ := hx
      rw [List.mem_filter] at he
      refine ⟨e, he.1, of_decide_eq_true ((hpt e) ▸ he.2), ?_⟩
      rcases List.mem_cons.mp hmem with h | h
      · exact Or.inl h.symm
      · obtain ⟨s, hsf, hsu⟩ := List.mem_map.mp h
        rw [List.mem_filter] at hsf
        exact Or.inr ⟨s, hsf.1, by simpa using hsf.2, hsu⟩
    · rintro ⟨e, he, hsc, hwho⟩
      have hx : uid ∈ ((st.expenditures.filter (fun e =>
          (st.events.filter (fun ev => ev.occasionId == some oid)).any
            (fun ev => ev.id == e.eventId))).flatMap (fun e =>
          e.paidById ::
            (st.splits.filter (fun s => s.expenditureId == e.id)).map
              ExpenditureSplit.userId)).dedup := by
        rw [List.mem_dedup, List.mem_flatMap]
        refine ⟨e, List.mem_filter.mpr ⟨he, by rw [hpt e]; exact decide_eq_true hsc⟩, ?_⟩
        rcases hwho with h | ⟨s, hsmem, hse, hsu⟩
        · exact List.mem_cons.mpr (Or.inl h.symm)
        · refine List.mem_cons.mpr (Or.inr (List.mem_map.mpr
            ⟨s, List.mem_filter.mpr ⟨hsmem, by simpa using hse⟩, hsu⟩))
      exact ⟨_, List.mem_map.mpr ⟨uid, hx, rfl⟩⟩
  · intro uid b hb
    obtain ⟨x, hx, hxy⟩ := List.mem_map.mp hb
    obtain ⟨hx1, hx2⟩ := Prod.mk.injEq .. ▸ hxy
    subst hx1
    exact hx2.symm

/-- Witness for C7 on `demoLedger` (the spec's P7 scenario): the summary of
occasion 1 reports 100.00 gross spend, 1 event, and participants exactly
users 1 (payer) and 2 (debtor), each with the scoped balance triple. -/
theorem occasion_summary_correct_witness :
    (∃ summary, occasion_summary demoLedger 1 1 = some summary ∧
      summary.total_events =
        (demoLedger.events.filter (fun ev => ev.occasionId == some 1)).length ∧
      summary.total_expenditures =
        ((demoLedger.expenditures.filter (fun e =>
            decide (e.eventId ∈ (demoLedger.events.filter
              (fun ev => ev.occasionId == some 1)).map Event.id))).map
          Expenditure.amount).sum ∧
      (∀ uid, (∃ b, (uid, b) ∈ summary.user_balances) ↔
        (∃ e ∈ demoLedger.expenditures,
          e.eventId ∈ (demoLedger.events.filter
            (fun ev => ev.occasionId == some 1)).map Event.id ∧
          (e.paidById = uid ∨
            ∃ s ∈ demoLedger.splits, s.expenditureId = e.id ∧ s.userId = uid))) ∧
      (∀ uid b, (uid, b) ∈ summary.user_balances →
        b = occasionUserBalance demoLedger
          (demoLedger.events.filter (fun ev => ev.occasionId == some 1)) uid)) ∧
    occasion_summary demoLedger 1 1 = some
      { occasionId := 1, total_expenditures := 10000, total_events := 1,
        user_balances :=
          [(1, { total_owed := 0, total_owes := 5000, balance := 5000 }),
           (2, { total_owed := 5000, total_owes := 0, balance := -5000 })] } := by
  constructor
  · exact occasion_summary_correct demoLedger 1 1 { id := 1, createdById := 1 } rfl
  · decide

/-- One engine operation never unsets a paid split: every split that is paid
before the operation is still present, with the same id, and still paid
afterwards. -/
theorem applyOp_isPaid_monotone (st : LedgerState) (op : Operation)
    (s : ExpenditureSplit) (hs : s ∈ st.splits) (hp : s.isPaid = true) :
    ∃ t ∈ (applyOp st op).splits, t.id = s.id ∧ t.isPaid = true := by
  cases op with
  | createExpenditure eventId amount d paidById splitType uids amts =>
    simp only [applyOp, ExpenditureSerializer.create]
    cases ExpenditureSerializer.is_valid amount splitType uids amts with
    | error e => exact ⟨s, hs, rfl, hp⟩
    | ok u => exact ⟨s, List.mem_append_left _ hs, rfl, hp⟩
  | settleSplit splitId ru =>
    simp only [applyOp, settle_expenditure_split]
    rcases hf : st.splits.find? (settlePred splitId) with _ | sp
    · exact ⟨s, hs, rfl, hp⟩
    · by_cases hne : (sp.userId != ru) = true
      · simp only [hne, if_true]
        exact ⟨s, hs, rfl, hp⟩
      · simp only [hne, Bool.false_eq_true, if_false]
        split
        · exact ⟨s, hs, rfl, hp⟩
        · refine ⟨if s.id == sp.id then { s with isPaid := true } else s,
            List.mem_map_of_mem _ hs, ?_, ?_⟩
          · by_cases h : s.id = sp.id <;> simp [h]
          · by_cases h : s.id = sp.id <;> simp [h, hp]
  | createPayment fromUserId toUserId amount d status ref =>
    exact ⟨s, hs, rfl, hp⟩
  | getUserBalance uid =>
    exact ⟨s, hs, rfl, hp⟩
  | getOccasionSummary oid ru =>
    exact ⟨s, hs, rfl, hp⟩

/-- Claim C9: across every sequence of engine operations — expenditure
creation, balance and summary reads, settlement, manual payment creation —
a split's `is_paid` only ever moves `false → true`: a split paid in the
initial state is still recorded as paid after the whole sequence. -/
theorem is_paid_monotone (ops : List Operation) (st : LedgerState)
    (s : ExpenditureSplit) (hs : s ∈ st.splits) (hp : s.isPaid = true) :
    ∃ t ∈ (ops.foldl applyOp st).splits, t.id = s.id ∧ t.isPaid = true := by
  induction ops generalizing st s with
  | nil => exact ⟨s, hs, rfl, hp⟩
  | cons op rest ih =>
    obtain ⟨t, ht, hid, hpt⟩ := applyOp_isPaid_monotone st op s hs hp
    obtain ⟨w, hw, hwid, hwp⟩ := ih (applyOp st op) t ht hpt
    exact ⟨w, hw, hwid.trans hid, hwp⟩

/-- Witness for C9: starting from the settled demo ledger, a settle retry, a
new expenditure, a manual payment and both reads leave split 1 paid. -/
theorem is_paid_monotone_witness :
    ∃ t ∈ (([Operation.settleSplit 1 2,
             Operation.createExpenditure 1 4000 "Lunch" 1 .equal [2, 3] [],
             Operation.createPayment 2 1 1000 "manual" .pending none,
             Operation.getUserBalance 2,
             Operation.getOccasionSummary 1 1] : List Operation).foldl applyOp
        settledDemoLedger).splits,
      t.id = ({ id := 1, expenditureId := 1, userId := 2, amount := 5000,
                isPaid := true } : ExpenditureSplit).id ∧ t.isPaid = true :=
  is_paid_monotone _ settledDemoLedger
    { id := 1, expenditureId := 1, userId := 2, amount := 5000, isPaid := true }
    (by decide) rfl

end Splitit
